import Mathlib

/-!
Shallow embedding of the `lunatic-redis` client library
(`src/lunatic-redis/src/{connection,pubsub,types}.rs`) and proofs about it.

Conventions of the embedding:
* Rust byte buffers (`Vec<u8>`, `&[u8]`) become `List Nat` (each entry a byte).
* Rust `i64` / `isize` become `Int`; where the source performs a fallible
  string-to-integer parse, the embedding checks the corresponding range.
* Fallible Rust functions returning `RedisResult<T>` become
  `Except RedisError T`.
* Effects on the wire (replies read off the socket, outcomes of issued
  commands) are passed in explicitly as data, so that every function is a
  pure function of the connection state and of the observed wire outcomes.
-/

namespace LunaticRedis

/-- `ErrorKind` from `types.rs`: the closed enumeration of error kinds. -/
inductive ErrorKind where
  | ResponseError
  | AuthenticationFailed
  | TypeError
  | ExecAbortError
  | BusyLoadingError
  | NoScriptError
  | InvalidClientConfig
  | Moved
  | Ask
  | TryAgain
  | ClusterDown
  | CrossSlot
  | MasterDown
  | IoError
  | ClientError
  | ExtensionError
  | ReadOnly
  deriving DecidableEq, Repr

/-- `IoErrorKind` from `types.rs`: general categories of I/O error. -/
inductive IoErrorKind where
  | NotFound
  | PermissionDenied
  | ConnectionRefused
  | ConnectionReset
  | HostUnreachable
  | NetworkUnreachable
  | ConnectionAborted
  | NotConnected
  | AddrInUse
  | AddrNotAvailable
  | NetworkDown
  | BrokenPipe
  | AlreadyExists
  | WouldBlock
  | NotADirectory
  | IsADirectory
  | DirectoryNotEmpty
  | ReadOnlyFilesystem
  | FilesystemLoop
  | StaleNetworkFileHandle
  | InvalidInput
  | InvalidData
  | TimedOut
  | WriteZero
  | StorageFull
  | NotSeekable
  | FilesystemQuotaExceeded
  | FileTooLarge
  | ResourceBusy
  | ExecutableFileBusy
  | Deadlock
  | CrossesDevices
  | TooManyLinks
  | InvalidFilename
  | ArgumentListTooLong
  | Interrupted
  | Unsupported
  | UnexpectedEof
  | OutOfMemory
  | Other
  | Uncategorized
  deriving DecidableEq, Repr

/-- `ErrorRepr` from `types.rs`: the internal representation of a `RedisError`. -/
inductive ErrorRepr where
  | WithDescription (kind : ErrorKind) (desc : String)
  | WithDescriptionAndDetail (kind : ErrorKind) (desc : String) (detail : String)
  | ExtensionError (code : String) (detail : String)
  | IoError (kind : IoErrorKind) (desc : String)
  deriving DecidableEq, Repr

/-- `RedisError` from `types.rs`. -/
structure RedisError where
  repr : ErrorRepr
  deriving DecidableEq, Repr

namespace RedisError

/-- `RedisError::kind` from `types.rs`. -/
def kind (e : RedisError) : ErrorKind :=
  match e.repr with
  | .WithDescription k _ => k
  | .WithDescriptionAndDetail k _ _ => k
  | .ExtensionError _ _ => ErrorKind.ExtensionError
  | .IoError _ _ => ErrorKind.IoError

/-- `RedisError::detail` from `types.rs`. -/
def detail (e : RedisError) : Option String :=
  match e.repr with
  | .WithDescriptionAndDetail _ _ d => some d
  | .ExtensionError _ d => some d
  | _ => none

/-- `impl PartialEq for RedisError` from `types.rs`: the `==` operator on
errors as the source defines it (note the catch-all `_ => false` arm). -/
def eq (a b : RedisError) : Bool :=
  match a.repr, b.repr with
  | .WithDescription ka _, .WithDescription kb _ => ka = kb
  | .WithDescriptionAndDetail ka _ _, .WithDescriptionAndDetail kb _ _ => ka = kb
  | .ExtensionError ca _, .ExtensionError cb _ => ca = cb
  | _, _ => false

/-- `RedisError::is_connection_dropped` from `types.rs`. -/
def is_connection_dropped (e : RedisError) : Bool :=
  match e.repr with
  | .IoError k _ =>
    match k with
    | IoErrorKind.BrokenPipe => true
    | IoErrorKind.ConnectionReset => true
    | _ => false
  | _ => false

/-- `RedisError::as_io_error` from `connection.rs`/`types.rs`: the body that
would convert back to an `io::Error` is commented out in the source, so the
function unconditionally returns `None`.  We keep the `IoErrorKind` as the
payload type a real conversion would expose. -/
def as_io_error (_e : RedisError) : Option IoErrorKind :=
  none

end RedisError

/-- `Value` from `types.rs`: the low-level redis value enum.  `Data` carries
raw bytes. -/
inductive Value where
  | Nil
  | Int (val : Int)
  | Data (bytes : List Nat)
  | Bulk (items : List Value)
  | Status (s : String)
  | Okay

/-! ### Byte and string primitives

Embeddings of the standard-library routines the source leans on:
`str::parse` for integers, `str::from_utf8`, percent decoding from the
`percent_encoding` crate, and substring search (`str::contains`). -/

/-- Value of a decimal digit character, `none` for non-digits. -/
def decDigit (c : Char) : Option Nat :=
  if 48 ≤ c.toNat ∧ c.toNat ≤ 57 then some (c.toNat - 48) else none

/-- Value of a non-empty all-digit character list, `none` otherwise. -/
def digitsVal (cs : List Char) : Option Nat :=
  if cs.isEmpty then none
  else cs.foldl (fun acc c => acc.bind fun n => (decDigit c).map fun d => n * 10 + d) (some 0)

/-- Rust `str::parse` for a signed integer type with range `[lo, hi]`:
an optional leading sign followed by one or more decimal digits; anything
else, or overflow, fails. -/
def rust_parse_int (lo hi : Int) (s : String) : Option Int :=
  let signedDigits : Bool × List Char :=
    match s.data with
    | '-' :: rest => (true, rest)
    | '+' :: rest => (false, rest)
    | rest => (false, rest)
  (digitsVal signedDigits.2).bind fun n =>
    let v : Int := if signedDigits.1 then -(n : Int) else (n : Int)
    if lo ≤ v ∧ v ≤ hi then some v else none

/-- Rust `str::parse::<i64>`. -/
def rust_parse_i64 (s : String) : Option Int :=
  rust_parse_int (-(2 ^ 63)) (2 ^ 63 - 1) s

/-- Rust `str::parse::<u8>`. -/
def rust_parse_u8 (s : String) : Option Nat :=
  (rust_parse_int 0 255 s).map Int.toNat

/-- Whether a byte is a UTF-8 continuation byte (`0x80..=0xBF`). -/
def isCont (b : Nat) : Prop := 0x80 ≤ b ∧ b < 0xC0

instance (b : Nat) : Decidable (isCont b) := by unfold isCont; infer_instance

/-- UTF-8 decoding of a byte list (the validation `str::from_utf8`
performs): strict range checks, rejecting overlong forms and surrogates. -/
def utf8Decode : List Nat → Option (List Char)
  | [] => some []
  | b :: rest =>
    if b < 0x80 then
      (utf8Decode rest).map fun cs => Char.ofNat b :: cs
    else if b < 0xC2 then none
    else if b < 0xE0 then
      match rest with
      | b2 :: rest2 =>
        if isCont b2 then
          (utf8Decode rest2).map fun cs => Char.ofNat ((b - 0xC0) * 64 + (b2 - 0x80)) :: cs
        else none
      | [] => none
    else if b < 0xF0 then
      match rest with
      | b2 :: b3 :: rest3 =>
        if (if b = 0xE0 then 0xA0 ≤ b2 ∧ b2 < 0xC0
            else if b = 0xED then 0x80 ≤ b2 ∧ b2 < 0xA0
            else isCont b2) ∧ isCont b3 then
          (utf8Decode rest3).map fun cs =>
            Char.ofNat ((b - 0xE0) * 4096 + (b2 - 0x80) * 64 + (b3 - 0x80)) :: cs
        else none
      | _ => none
    else if b < 0xF5 then
      match rest with
      | b2 :: b3 :: b4 :: rest4 =>
        if (if b = 0xF0 then 0x90 ≤ b2 ∧ b2 < 0xC0
            else if b = 0xF4 then 0x80 ≤ b2 ∧ b2 < 0x90
            else isCont b2) ∧ isCont b3 ∧ isCont b4 then
          (utf8Decode rest4).map fun cs =>
            Char.ofNat ((b - 0xF0) * 262144 + (b2 - 0x80) * 4096
              + (b3 - 0x80) * 64 + (b4 - 0x80)) :: cs
        else none
      | _ => none
    else none

/-- `str::from_utf8` as a total function to `Option String`. -/
def utf8DecodeStr (bytes : List Nat) : Option String :=
  (utf8Decode bytes).map List.asString

/-- UTF-8 encoding of one character (`char::encode_utf8`). -/
def utf8EncodeChar (c : Char) : List Nat :=
  let n := c.toNat
  if n < 0x80 then [n]
  else if n < 0x800 then [0xC0 + n / 64, 0x80 + n % 64]
  else if n < 0x10000 then [0xE0 + n / 4096, 0x80 + (n / 64) % 64, 0x80 + n % 64]
  else [0xF0 + n / 262144, 0x80 + (n / 4096) % 64, 0x80 + (n / 64) % 64, 0x80 + n % 64]

/-- `str::as_bytes`: the UTF-8 bytes of a string. -/
def utf8Encode (s : String) : List Nat :=
  (s.data.map utf8EncodeChar).flatten

/-- Value of one hexadecimal digit byte, `none` otherwise. -/
def hexVal (b : Nat) : Option Nat :=
  if 48 ≤ b ∧ b ≤ 57 then some (b - 48)
  else if 65 ≤ b ∧ b ≤ 70 then some (b - 55)
  else if 97 ≤ b ∧ b ≤ 102 then some (b - 87)
  else none

/-- `percent_encoding::percent_decode`: a `%` followed by two hex digits
decodes to that byte; a malformed escape is passed through literally. -/
def percent_decode : List Nat → List Nat
  | [] => []
  | 37 :: h1 :: h2 :: rest =>
    match hexVal h1, hexVal h2 with
    | some a, some b => (a * 16 + b) :: percent_decode rest
    | _, _ => 37 :: percent_decode (h1 :: h2 :: rest)
  | b :: rest => b :: percent_decode rest

/-- Rust `str::contains(needle)` for a string needle. -/
def contains_substring (hay needle : String) : Bool :=
  hay.data.tails.any fun t => needle.data.isPrefixOf t

/-! ### `FromRedisValue` conversions (`types.rs`)

Only the instances the modelled code paths use.  The dynamic part of the
`invalid_type_error!` detail text (the `Debug` rendering of the offending
value) is not reproduced; error identity in the source compares kinds only. -/

/-- `invalid_type_error!` from `types.rs`. -/
def invalidTypeError (detailText : String) : RedisError :=
  ⟨.WithDescriptionAndDetail .TypeError "Response was of incompatible type" detailText⟩

/-- `impl From<Utf8Error> for RedisError`. -/
def utf8Error : RedisError :=
  ⟨.WithDescription .TypeError "Invalid UTF-8"⟩

/-- `impl FromRedisValue for String`. -/
def from_redis_string : Value → Except RedisError String
  | .Data bytes =>
    match utf8DecodeStr bytes with
    | some s => .ok s
    | none => .error utf8Error
  | .Okay => .ok "OK"
  | .Status val => .ok val
  | _ => .error (invalidTypeError "Response type not string compatible.")

/-- `impl FromRedisValue for Vec<Value>`: `Data` hits the `from_byte_vec`
default (`None`) and fails; `Bulk` succeeds elementwise (identity for
`Value`); `Nil` is the empty vector. -/
def from_redis_vec_value : Value → Except RedisError (List Value)
  | .Data _ => .error (invalidTypeError "Response type not vector compatible.")
  | .Bulk items => .ok items
  | .Nil => .ok []
  | _ => .error (invalidTypeError "Response type not vector compatible.")

/-- `impl FromRedisValue for u8` (`from_redis_value_for_num_internal!`):
`Int` is cast with `as u8` (truncation), strings are parsed. -/
def from_redis_u8 : Value → Except RedisError Nat
  | .Int val => .ok (val % 256).toNat
  | .Status s =>
    match rust_parse_u8 s with
    | some n => .ok n
    | none => .error (invalidTypeError "Could not convert from string.")
  | .Data bytes =>
    match utf8DecodeStr bytes with
    | none => .error utf8Error
    | some s =>
      match rust_parse_u8 s with
      | some n => .ok n
      | none => .error (invalidTypeError "Could not convert from string.")
  | _ => .error (invalidTypeError "Response type not convertible to numeric.")

/-- `impl FromRedisValue for isize` (`from_redis_value_for_num!`); the
pointer-size integer is modelled with the 64-bit range. -/
def from_redis_isize : Value → Except RedisError Int
  | .Int val => .ok val
  | .Status s =>
    match rust_parse_i64 s with
    | some n => .ok n
    | none => .error (invalidTypeError "Could not convert from string.")
  | .Data bytes =>
    match utf8DecodeStr bytes with
    | none => .error utf8Error
    | some s =>
      match rust_parse_i64 s with
      | some n => .ok n
      | none => .error (invalidTypeError "Could not convert from string.")
  | _ => .error (invalidTypeError "Response type not convertible to numeric.")

/-- `impl FromRedisValue for Vec<u8>`: `Data` is taken verbatim via the
`from_byte_vec` specialization; `Bulk` converts elementwise; `Nil` is empty. -/
def from_redis_vec_u8 : Value → Except RedisError (List Nat)
  | .Data bytes => .ok bytes
  | .Bulk items => items.mapM from_redis_u8
  | .Nil => .ok []
  | _ => .error (invalidTypeError "Response type not vector compatible.")

/-- `impl FromRedisValue for ()`: never fails. -/
def from_redis_unit (_v : Value) : Except RedisError Unit :=
  .ok ()

/-- `impl FromRedisValue for (Vec<u8>, (), isize)` (the tuple macro):
requires a `Bulk` of exactly three items and converts them positionally. -/
def from_redis_unsub_triple : Value → Except RedisError (List Nat × Unit × Int)
  | .Bulk items =>
    match items with
    | [a, b, c] => do
      let bytes ← from_redis_vec_u8 a
      let u ← from_redis_unit b
      let cnt ← from_redis_isize c
      .ok (bytes, u, cnt)
    | _ => .error (invalidTypeError "Bulk response of wrong dimension")
  | _ => .error (invalidTypeError "Not a bulk response")

/-! ### Transport and connection (`connection.rs`)

The socket handle is not represented; instead every I/O step takes the
outcome it observes (the result of the write, or the value the parser
produced from the stream) as an explicit argument.  The `open` liveness
flag of the source becomes the field `openFlag`. -/

/-- `ActualConnection` from `connection.rs`: a plaintext or TLS transport,
each holding its `open` liveness flag (field `open` in the source). -/
inductive ActualConnection where
  | Tcp (openFlag : Bool)
  | TcpTls (openFlag : Bool)
  deriving DecidableEq, Repr

namespace ActualConnection

/-- `ActualConnection::is_open`. -/
def is_open : ActualConnection → Bool
  | .Tcp o => o
  | .TcpTls o => o

/-- Assignment `connection.open = b` on either variant. -/
def setOpen : ActualConnection → Bool → ActualConnection
  | .Tcp _, b => .Tcp b
  | .TcpTls _, b => .TcpTls b

/-- `ActualConnection::send_bytes`: on a write error the `open` flag is
cleared exactly when the error `is_connection_dropped`; on success the
reply is `Value::Okay`.  Both source arms (Tcp and TcpTls) perform this
same logic. -/
def send_bytes (c : ActualConnection) (writeResult : Except RedisError Unit) :
    Except RedisError Value × ActualConnection :=
  match writeResult with
  | .error e => (.error e, if e.is_connection_dropped then c.setOpen false else c)
  | .ok _ => (.ok Value.Okay, c)

end ActualConnection

/-- `Connection` from `connection.rs` (the parser state carries no
observable data in this embedding: parse outcomes are supplied as
explicit wire data). -/
structure Connection where
  con : ActualConnection
  db : Int
  pubsub : Bool
  deriving DecidableEq, Repr

namespace Connection

/-- `ConnectionLike::is_open` for `Connection`. -/
def is_open (c : Connection) : Bool :=
  c.con.is_open

/-- `Connection::read_response`: `parsed` is the outcome
`self.parser.parse_value(reader)` produced.  The source then computes a
`shutdown` flag from `as_io_error` (which always returns `None`), and even
when it were true, both arms of the shutdown `match` are commented out, so
the connection state is never modified. -/
def read_response (c : Connection) (parsed : Except RedisError Value) :
    Except RedisError Value × Connection :=
  match parsed with
  | .error e =>
    let shutdown : Bool :=
      match e.as_io_error with
      | some k => k == IoErrorKind.UnexpectedEof
      | none => false
    if shutdown then
      (.error e, c)
    else
      (.error e, c)
  | .ok v => (.ok v, c)

end Connection

/-- The error `read_response` reports when the stream ends while a reply
is still owed (used only for wires shorter than the number of replies the
pipeline loop demands; the theorems below always supply enough replies). -/
def unexpectedEofError : RedisError :=
  ⟨.IoError IoErrorKind.UnexpectedEof "unexpected end of file"⟩

/-- One `read_response` against an explicit wire: the next per-reply
outcome is consumed, an exhausted wire reads as an unexpected EOF. -/
def wire_read (wire : List (Except RedisError Value)) :
    Except RedisError Value × List (Except RedisError Value) :=
  match wire with
  | [] => (.error unexpectedEofError, [])
  | o :: rest => (o, rest)

/-- The `for idx in 0..(offset + count)` loop of
`Connection::req_packed_commands`: each iteration reads one reply; an
`Ok` reply is appended to `rv` when `idx >= offset`; an `Err` reply is
recorded in `first_err` only if none was recorded yet, and never stops
the loop. -/
def req_loop (wire : List (Except RedisError Value)) (idx remaining offset : Nat)
    (rv : List Value) (first_err : Option RedisError) :
    (Option RedisError × List Value) × List (Except RedisError Value) :=
  match remaining with
  | 0 => ((first_err, rv), wire)
  | r + 1 =>
    let (response, wire') := wire_read wire
    match response with
    | .ok item =>
      req_loop wire' (idx + 1) r offset (if offset ≤ idx then rv ++ [item] else rv) first_err
    | .error err =>
      let first_err' := match first_err with
        | none => some err
        | some e0 => some e0
      req_loop wire' (idx + 1) r offset rv first_err'

/-- `Connection::req_packed_commands`: sends the packed buffer (outcome
`sendResult`), then reads exactly `offset + count` replies, and returns
`first_err.map_or(Ok(rv), Err)`.  The unconsumed tail of the wire is
returned alongside. -/
def req_packed_commands (c : Connection) (sendResult : Except RedisError Unit)
    (wire : List (Except RedisError Value)) (offset count : Nat) :
    (Except RedisError (List Value) × Connection) × List (Except RedisError Value) :=
  let (sent, con') := c.con.send_bytes sendResult
  match sent with
  | .error e => ((.error e, { c with con := con' }), wire)
  | .ok _ =>
    let ((first_err, rv), wire') := req_loop wire 0 (offset + count) offset [] none
    match first_err with
    | some e => ((.error e, { c with con := con' }), wire')
    | none => ((.ok rv, { c with con := con' }), wire')

/-! ### Connection URLs (`connection.rs`)

`url::Url` is an external collaborator; it is modelled by the accessor
surface the source consumes (`scheme()`, `host()`, `port()`, `path()`,
`username()`, `password()`, `fragment()`), with username/password still
percent-encoded exactly as the crate returns them. -/

/-- Accessor surface of a parsed `url::Url`. -/
structure Url where
  scheme : String
  host : Option String
  port : Option Nat
  path : String
  username : String
  password : Option String
  fragment : Option String
  deriving DecidableEq, Repr

/-- `ConnectionAddr` from `connection.rs`. -/
inductive ConnectionAddr where
  | Tcp (host : String) (port : Nat)
  | TcpTls (host : String) (port : Nat) (insecure : Bool)
  | Unix (path : String)
  deriving DecidableEq, Repr

/-- `RedisConnectionInfo` from `connection.rs`. -/
structure RedisConnectionInfo where
  db : Int
  username : Option String
  password : Option String
  deriving DecidableEq, Repr

/-- `ConnectionInfo` from `connection.rs`. -/
structure ConnectionInfo where
  addr : ConnectionAddr
  redis : RedisConnectionInfo
  deriving DecidableEq, Repr

/-- Shorthand for `fail!((ErrorKind::InvalidClientConfig, msg))`. -/
def invalidConfigError (msg : String) : RedisError :=
  ⟨.WithDescription .InvalidClientConfig msg⟩

/-- Rust `str::trim_matches('/')`: strip `/` characters from both ends. -/
def trim_slashes (s : String) : String :=
  (((s.data.dropWhile fun c => c == '/').reverse.dropWhile fun c => c == '/').reverse).asString

/-- `DEFAULT_PORT` from `connection.rs`. -/
def DEFAULT_PORT : Nat := 6379

/-- `url_to_tcp_connection_info` from `connection.rs`. -/
def url_to_tcp_connection_info (url : Url) : Except RedisError ConnectionInfo := do
  let host ← match url.host with
    | some h => pure h
    | none => Except.error (invalidConfigError "Missing hostname")
  let port := url.port.getD DEFAULT_PORT
  let addr ←
    if url.scheme = "rediss" then
      match url.fragment with
      | some "insecure" => pure (ConnectionAddr.TcpTls host port true)
      | some _ =>
        Except.error (invalidConfigError "only #insecure is supported as URL fragment")
      | none => pure (ConnectionAddr.TcpTls host port false)
    else
      pure (ConnectionAddr.Tcp host port)
  let db ← match trim_slashes url.path with
    | "" => pure (0 : Int)
    | path =>
      match rust_parse_i64 path with
      | some n => pure n
      | none => Except.error (invalidConfigError "Invalid database number")
  let username ←
    if url.username = "" then
      pure (none : Option String)
    else
      match utf8DecodeStr (percent_decode (utf8Encode url.username)) with
      | some decoded => pure (some decoded)
      | none => Except.error (invalidConfigError "Username is not valid UTF-8 string")
  let password ← match url.password with
    | some pw =>
      match utf8DecodeStr (percent_decode (utf8Encode pw)) with
      | some decoded => pure (some decoded)
      | none => Except.error (invalidConfigError "Password is not valid UTF-8 string")
    | none => pure (none : Option String)
  pure ⟨addr, ⟨db, username, password⟩⟩

/-- `impl IntoConnectionInfo for url::Url`: dispatch on the scheme.  The
crate ships only the `#[cfg(not(unix))]` `url_to_unix_connection_info`,
which rejects unix addresses outright. -/
def Url.into_connection_info (url : Url) : Except RedisError ConnectionInfo :=
  if url.scheme = "redis" ∨ url.scheme = "rediss" then
    url_to_tcp_connection_info url
  else if url.scheme = "unix" ∨ url.scheme = "redis+unix" then
    Except.error (invalidConfigError "Unix sockets are not available on this platform.")
  else
    Except.error (invalidConfigError "URL provided is not a redis URL")

/-! ### Session bootstrap (`connection.rs`)

The replies the server gives to the AUTH and SELECT commands are passed
in explicitly; the list of issued commands is returned as a trace. -/

/-- The two wire forms of AUTH the client can issue. -/
inductive AuthCmd where
  | modern (username : Option String) (password : String)
  | legacy (password : String)
  deriving DecidableEq, Repr

/-- Server replies available to `connect_auth`: the reply to the modern
`AUTH [user] pass` form and the reply to the legacy `AUTH pass` form
(the latter consulted only if the fallback is taken). -/
structure AuthReplies where
  modern : Except RedisError Value
  legacy : Except RedisError Value

/-- `fail!((ErrorKind::AuthenticationFailed, "Password authentication failed"))`. -/
def authFailedError : RedisError :=
  ⟨.WithDescription .AuthenticationFailed "Password authentication failed"⟩

/-- The `ResponseError` for an `Ok` AUTH reply that is not `Value::Okay`. -/
def authRefusedError : RedisError :=
  ⟨.WithDescription .ResponseError
    "Redis server refused to authenticate, returns Ok() != Value::Okay"⟩

/-- `connect_auth` from `connection.rs`: try the modern AUTH form; fall
back to the legacy single-argument form only when the error detail
contains the wrong-arity message for 'auth'. -/
def connect_auth (username : Option String) (password : String) (replies : AuthReplies) :
    Except RedisError Unit × List AuthCmd :=
  match replies.modern with
  | .ok Value.Okay => (.ok (), [AuthCmd.modern username password])
  | .ok _ => (.error authRefusedError, [AuthCmd.modern username password])
  | .error err =>
    match err.detail with
    | none => (.error authFailedError, [AuthCmd.modern username password])
    | some err_msg =>
      if !(contains_substring err_msg "wrong number of arguments for 'auth' command") then
        (.error authFailedError, [AuthCmd.modern username password])
      else
        match replies.legacy with
        | .ok Value.Okay => (.ok (), [AuthCmd.modern username password, AuthCmd.legacy password])
        | _ => (.error authFailedError, [AuthCmd.modern username password, AuthCmd.legacy password])

/-- Commands issued during `setup_connection`. -/
inductive SetupCmd where
  | auth (c : AuthCmd)
  | select (db : Int)
  deriving DecidableEq, Repr

/-- Server replies available to `setup_connection`. -/
structure SetupReplies where
  auth : AuthReplies
  select : Except RedisError Value

/-- `setup_connection` from `connection.rs`: build the connection record,
run `connect_auth` iff a password is set, then SELECT iff `db != 0`. -/
def setup_connection (con : ActualConnection) (info : RedisConnectionInfo)
    (replies : SetupReplies) : Except RedisError Connection × List SetupCmd :=
  let rv : Connection := ⟨con, info.db, false⟩
  let authStep : Except RedisError Unit × List SetupCmd :=
    match info.password with
    | some pw =>
      let (r, cmds) := connect_auth info.username pw replies.auth
      (r, cmds.map SetupCmd.auth)
    | none => (.ok (), [])
  match authStep with
  | (.error e, cmds) => (.error e, cmds)
  | (.ok _, cmds) =>
    if info.db ≠ 0 then
      match replies.select with
      | .ok Value.Okay => (.ok rv, cmds ++ [SetupCmd.select info.db])
      | _ =>
        (.error ⟨.WithDescription .ResponseError "Redis server refused to switch database"⟩,
         cmds ++ [SetupCmd.select info.db])
    else
      (.ok rv, cmds)

/-! ### Pub/Sub messages (`connection.rs`) -/

/-- `Msg` from `connection.rs`. -/
structure Msg where
  payload : Value
  channel : Value
  pattern : Option Value

/-- `Confirmation` from `connection.rs`. -/
inductive Confirmation where
  | Pattern (name : String)
  | Punsub (name : String)
  | Topic (name : String)
  | Unsub (name : String)
  deriving DecidableEq, Repr

/-- `Confirmation::check_confirmation` from `connection.rs`. -/
def Confirmation.check_confirmation (value : Value) : Option Confirmation :=
  match (from_redis_vec_value value).toOption with
  | none => none
  | some raw_msg =>
    match raw_msg with
    | [] => none
    | first :: restItems =>
      match (from_redis_string first).toOption with
      | none => none
      | some msg_type =>
        if msg_type ∈ ["unsubscribe", "punsubscribe", "subscribe", "psubscribe"] then
          match restItems with
          | [] => none
          | second :: _ =>
            match (from_redis_string second).toOption with
            | none => none
            | some matching =>
              if msg_type = "psubscribe" then some (.Pattern matching)
              else if msg_type = "subscribe" then some (.Topic matching)
              else if msg_type = "punsubscribe" then some (.Punsub matching)
              else some (.Unsub matching)
        else none

namespace Msg

/-- `Msg::from_value` from `connection.rs`: `["message", channel, payload, ..]`
or `["pmessage", pattern, channel, payload, ..]` (the iterator ignores
trailing extras). -/
def from_value (value : Value) : Option Msg :=
  match (from_redis_vec_value value).toOption with
  | none => none
  | some raw_msg =>
    match raw_msg with
    | [] => none
    | first :: rest =>
      match (from_redis_string first).toOption with
      | none => none
      | some msg_type =>
        if msg_type = "message" then
          match rest with
          | channel :: payload :: _ => some ⟨payload, channel, none⟩
          | _ => none
        else if msg_type = "pmessage" then
          match rest with
          | pattern :: channel :: payload :: _ => some ⟨payload, channel, some pattern⟩
          | _ => none
        else none

/-- `Msg::get_channel_name` from `connection.rs`. -/
def get_channel_name (m : Msg) : String :=
  match m.channel with
  | .Data bytes => (utf8DecodeStr bytes).getD "?"
  | _ => "?"

/-- `Msg::get_payload_bytes` from `connection.rs`. -/
def get_payload_bytes (m : Msg) : List Nat :=
  match m.payload with
  | .Data bytes => bytes
  | _ => []

/-- `Msg::from_pattern` from `connection.rs`. -/
def from_pattern (m : Msg) : Bool :=
  m.pattern.isSome

end Msg

/-! ### Pub/Sub session (`pubsub.rs`)

Replies delivered by the server are passed in as explicit lists; the
outcome of each issued command is likewise an explicit argument. -/

/-- `RedisPubSub` from `pubsub.rs`. -/
structure RedisPubSub where
  connection : Connection
  subscribed_topics : List String
  subscribed_patterns : List String
  deriving DecidableEq, Repr

/-- `RedisError::from((ErrorKind::TypeError, "Failed to parse message"))`. -/
def failedParseError : RedisError :=
  ⟨.WithDescription .TypeError "Failed to parse message"⟩

namespace RedisPubSub

/-- `RedisPubSub::new`. -/
def new (connection : Connection) : RedisPubSub :=
  ⟨connection, [], []⟩

/-- `RedisPubSub::subscribe`: issue SUBSCRIBE (its outcome is `reply`,
where `query::<()>` succeeds on any reply value), and push the topic onto
the tracked list only on success. -/
def subscribe (ps : RedisPubSub) (topic : String) (reply : Except RedisError Value) :
    Except RedisError Unit × RedisPubSub :=
  match reply with
  | .error e => (.error e, ps)
  | .ok _ => (.ok (), { ps with subscribed_topics := ps.subscribed_topics ++ [topic] })

/-- `RedisPubSub::psubscribe`: the pattern analogue of `subscribe`. -/
def psubscribe (ps : RedisPubSub) (pattern : String) (reply : Except RedisError Value) :
    Except RedisError Unit × RedisPubSub :=
  match reply with
  | .error e => (.error e, ps)
  | .ok _ => (.ok (), { ps with subscribed_patterns := ps.subscribed_patterns ++ [pattern] })

/-- `RedisPubSub::receive` over the sequence of replies delivered:
confirmations are discarded, the first non-confirmation is converted with
`Msg::from_value` (a failure to convert is the `TypeError`); `none` means
every delivered reply was a confirmation and the loop is still blocked
reading. -/
def receive : List Value → Option (Except RedisError Msg)
  | [] => none
  | v :: rest =>
    match Confirmation.check_confirmation v with
    | some _ => receive rest
    | none =>
      match Msg.from_value v with
      | some msg => some (.ok msg)
      | none => some (.error failedParseError)

end RedisPubSub

/-- Events of the pub/sub drain in `exit_pubsub`. -/
inductive PsEvent where
  | send_unsubscribe
  | send_punsubscribe
  | read
  deriving DecidableEq, Repr

/-- The `match res.0.first()` of `clear_active_subscriptions`: a first
byte `b'u'` (117) records the unsubscribe confirmation, `b'p'` (112) the
punsubscribe one, anything else changes nothing. -/
def updFlags (received_unsub received_punsub : Bool) (bytes : List Nat) : Bool × Bool :=
  match bytes.head? with
  | some 117 => (true, received_punsub)
  | some 112 => (received_unsub, true)
  | _ => (received_unsub, received_punsub)

/-- The receive loop of `clear_active_subscriptions`: each reply is
converted to `(Vec<u8>, (), isize)` (a conversion error propagates);
the confirmation flags are updated from the reply's first byte; the loop
breaks once both were seen and the current reply's
remaining-subscription count is `0`.  Returns the unread tail on
success, `none` if the replies ran out with the loop still waiting. -/
def clear_loop : List Value → Bool → Bool → Option (Except RedisError (List Value)) × List PsEvent
  | [], _, _ => (none, [])
  | v :: rest, received_unsub, received_punsub =>
    match from_redis_unsub_triple v with
    | .error e => (some (.error e), [PsEvent.read])
    | .ok (bytes, _, cnt) =>
      let flags : Bool × Bool := updFlags received_unsub received_punsub bytes
      if flags.1 && flags.2 && cnt == 0 then (some (.ok rest), [PsEvent.read])
      else
        let (r, evs) := clear_loop rest flags.1 flags.2
        (r, PsEvent.read :: evs)

/-- `RedisPubSub::clear_active_subscriptions`: send UNSUBSCRIBE and
PUNSUBSCRIBE back-to-back (no read in between), then run the receive
loop. -/
def clear_active_subscriptions (replies : List Value) :
    Option (Except RedisError (List Value)) × List PsEvent :=
  let (r, evs) := clear_loop replies false false
  (r, PsEvent.send_unsubscribe :: PsEvent.send_punsubscribe :: evs)

/-- `RedisPubSub::exit_pubsub`: drain the subscriptions, then hand the
connection back. -/
def RedisPubSub.exit_pubsub (ps : RedisPubSub) (replies : List Value) :
    Option (Except RedisError Connection) × List PsEvent :=
  let (r, evs) := clear_active_subscriptions replies
  (match r with
   | none => none
   | some (.error e) => some (.error e)
   | some (.ok _) => some (.ok ps.connection), evs)

/-! ### Transaction helper (`connection.rs`)

One round of the `transaction` loop observes: the outcome of
`WATCH key...`, the outcome of the user step function, and (if reached)
the outcome of `UNWATCH`.  The loop itself is driven by the list of
rounds the environment provides; a result of `none` means the loop was
still retrying when the provided rounds ran out. -/

/-- The outcomes one iteration of the `transaction` loop can observe. -/
structure TxRound (T : Type) where
  watch : Except RedisError Unit
  step : Except RedisError (Option T)
  unwatch : Except RedisError Unit

/-- Commands/calls issued by the `transaction` loop, in order. -/
inductive TxEvent where
  | watch
  | step
  | unwatch
  deriving DecidableEq, Repr

/-- The body of the `transaction` loop: `WATCH`, then the user function,
then on a `Some` result an unconditional `UNWATCH`; `Ok none` means
"retry". -/
def tx_body {T : Type} (r : TxRound T) : Except RedisError (Option T) × List TxEvent :=
  match r.watch with
  | .error e => (.error e, [TxEvent.watch])
  | .ok _ =>
    match r.step with
    | .error e => (.error e, [TxEvent.watch, TxEvent.step])
    | .ok none => (.ok none, [TxEvent.watch, TxEvent.step])
    | .ok (some response) =>
      match r.unwatch with
      | .error e => (.error e, [TxEvent.watch, TxEvent.step, TxEvent.unwatch])
      | .ok _ => (.ok (some response), [TxEvent.watch, TxEvent.step, TxEvent.unwatch])

/-- `transaction` from `connection.rs`, driven by the provided rounds:
`some (ok v)` is the committed result, `some (error e)` a propagated
error, `none` means every provided round ended in "retry". -/
def transaction {T : Type} : List (TxRound T) → Option (Except RedisError T) × List TxEvent
  | [] => (none, [])
  | r :: rest =>
    match tx_body r with
    | (.ok none, evs) =>
      let (res, evs') := transaction rest
      (res, evs ++ evs')
    | (.ok (some v), evs) => (some (.ok v), evs)
    | (.error e, evs) => (some (.error e), evs)

/-! ## Theorems -/

/-! ### C8: error equality -/

/-- Discriminant of the four `ErrorRepr` variants. -/
def reprTag : ErrorRepr → Nat
  | .WithDescription _ _ => 0
  | .WithDescriptionAndDetail _ _ _ => 1
  | .ExtensionError _ _ => 2
  | .IoError _ _ => 3

/-- The extension code carried by an `ErrorRepr`, if any. -/
def extCode : ErrorRepr → Option String
  | .ExtensionError code _ => some code
  | _ => none

/-- C8 (counterexample): two transport (I/O) errors with the same I/O
sub-kind (`TimedOut`) and the same `kind()` (`IoError`) still compare
unequal under the source's `PartialEq`, because the catch-all arm of the
`eq` match returns `false` for the `IoError` representation. -/
theorem C8_counterexample :
    (RedisError.mk (.IoError .TimedOut "timed out")).kind
        = (RedisError.mk (.IoError .TimedOut "read timed out")).kind ∧
    RedisError.eq (RedisError.mk (.IoError .TimedOut "timed out"))
        (RedisError.mk (.IoError .TimedOut "read timed out")) = false := by
  exact ⟨rfl, rfl⟩

/-- C8 (amended): `e1 == e2` holds exactly when the two errors carry the
same representation variant other than the transport (I/O) variant, the
same error kind, and (for extension errors) the same extension code —
independent of message or detail text; two I/O errors never compare
equal, even with the same I/O sub-kind. -/
theorem C8_eq_characterization (a b : RedisError) :
    RedisError.eq a b = true ↔
      (reprTag a.repr = reprTag b.repr ∧ reprTag a.repr ≠ 3 ∧
       a.kind = b.kind ∧ extCode a.repr = extCode b.repr) := by
  obtain ⟨ra⟩ := a
  obtain ⟨rb⟩ := b
  cases ra <;> cases rb <;>
    simp [RedisError.eq, reprTag, extCode, RedisError.kind]

/-! ### C10: total raw accessors of `Msg` -/

/-- C10: `get_channel_name` returns the decoded string for a `Data`
channel holding valid UTF-8 and `"?"` for invalid UTF-8 or any other
variant; `get_payload_bytes` returns the payload bytes for a `Data`
payload and the empty byte string otherwise.  Both are total functions. -/
theorem C10_raw_accessors (m : Msg) :
    (∀ bytes s, m.channel = Value.Data bytes → utf8DecodeStr bytes = some s →
      m.get_channel_name = s) ∧
    (∀ bytes, m.channel = Value.Data bytes → utf8DecodeStr bytes = none →
      m.get_channel_name = "?") ∧
    ((∀ bytes, m.channel ≠ Value.Data bytes) → m.get_channel_name = "?") ∧
    (∀ bytes, m.payload = Value.Data bytes → m.get_payload_bytes = bytes) ∧
    ((∀ bytes, m.payload ≠ Value.Data bytes) → m.get_payload_bytes = []) := by
  refine ⟨?_, ?_, ?_, ?_, ?_⟩
  · intro bytes s hch hdec
    simp [Msg.get_channel_name, hch, hdec]
  · intro bytes hch hdec
    simp [Msg.get_channel_name, hch, hdec]
  · intro hnot
    unfold Msg.get_channel_name
    cases h : m.channel with
    | Data bytes => exact absurd h (hnot bytes)
    | _ => rfl
  · intro bytes hp
    simp [Msg.get_payload_bytes, hp]
  · intro hnot
    unfold Msg.get_payload_bytes
    cases h : m.payload with
    | Data bytes => exact absurd h (hnot bytes)
    | _ => rfl

/-- C10 (witness): the accessors evaluated on concrete messages — a valid
UTF-8 channel, an invalid UTF-8 channel, a non-`Data` channel, a `Data`
payload, and a non-`Data` payload. -/
theorem C10_raw_accessors_witness :
    (Msg.get_channel_name ⟨Value.Data [1], Value.Data [104], none⟩ = "h") ∧
    (Msg.get_channel_name ⟨Value.Nil, Value.Data [255], none⟩ = "?") ∧
    (Msg.get_channel_name ⟨Value.Nil, Value.Int 3, none⟩ = "?") ∧
    (Msg.get_payload_bytes ⟨Value.Data [7, 8], Value.Nil, none⟩ = [7, 8]) ∧
    (Msg.get_payload_bytes ⟨Value.Okay, Value.Nil, none⟩ = []) := by
  refine ⟨(C10_raw_accessors _).1 [104] "h" rfl rfl,
    (C10_raw_accessors _).2.1 [255] rfl rfl,
    (C10_raw_accessors _).2.2.1 fun bytes h => Value.noConfusion h,
    (C10_raw_accessors _).2.2.2.1 [7, 8] rfl,
    (C10_raw_accessors _).2.2.2.2 fun bytes h => Value.noConfusion h⟩

/-! ### C3: liveness flag on write vs read errors -/

/-- A connection-reset transport error. -/
def resetError : RedisError :=
  ⟨.IoError .ConnectionReset "Connection reset by peer"⟩

/-- C3 (code evaluated at the failing input): a write observing a
connection-reset does clear the `open` flag, but a `read_response` that
observes a connection-reset — or even an unexpected-EOF — leaves the flag
`true`: the shutdown block in the source is commented out and
`as_io_error` always returns `None`, contradicting the documented
behaviour of `is_open`. -/
theorem C3_read_never_closes :
    ((ActualConnection.Tcp true).send_bytes (.error resetError)).2.is_open = false ∧
    ((Connection.mk (.Tcp true) 0 false).read_response (.error resetError)).2.is_open = true ∧
    ((Connection.mk (.Tcp true) 0 false).read_response (.error unexpectedEofError)).2.is_open
      = true := by
  exact ⟨rfl, rfl, rfl⟩

/-! ### C9: tracked subscriptions are a lower bound on server truth -/

/-- A subscription request: SUBSCRIBE a topic or PSUBSCRIBE a pattern. -/
inductive SubOp where
  | topic (name : String)
  | pattern (name : String)
  deriving DecidableEq, Repr

/-- One subscribe call as the environment sees it: the operation, the
reply outcome, and — for an error outcome — whether the server had in
fact already registered the subscription (adversarial, since a transport
error leaves that unknowable to the client). -/
structure SubStep where
  op : SubOp
  reply : Except RedisError Value
  serverAppliedOnError : Bool

/-- Run a sequence of subscribe calls against the client session state. -/
def runClient : RedisPubSub → List SubStep → RedisPubSub
  | ps, [] => ps
  | ps, s :: rest =>
    let ps' := match s.op with
      | .topic name => (ps.subscribe name s.reply).2
      | .pattern name => (ps.psubscribe name s.reply).2
    runClient ps' rest

/-- Whether the server registered the subscription of a step: always on a
successful reply, adversarially on an error. -/
def serverApplies (s : SubStep) : Bool :=
  match s.reply with
  | .ok _ => true
  | .error _ => s.serverAppliedOnError

/-- The server-side subscription sets (topics, patterns) after a sequence
of subscribe calls. -/
def runServer : List String × List String → List SubStep → List String × List String
  | srv, [] => srv
  | (ts, pats), s :: rest =>
    let srv' :=
      if serverApplies s then
        match s.op with
        | .topic n => (ts ++ [n], pats)
        | .pattern n => (ts, pats ++ [n])
      else (ts, pats)
    runServer srv' rest

/-- The client's tracked sets stay below the server's sets through any
sequence of subscribe calls. -/
theorem runClient_subset (steps : List SubStep) :
    ∀ (ps : RedisPubSub) (srv : List String × List String),
      ps.subscribed_topics ⊆ srv.1 → ps.subscribed_patterns ⊆ srv.2 →
      (runClient ps steps).subscribed_topics ⊆ (runServer srv steps).1 ∧
      (runClient ps steps).subscribed_patterns ⊆ (runServer srv steps).2 := by
  induction steps with
  | nil => intro ps srv h1 h2; exact ⟨h1, h2⟩
  | cons s rest ih =>
    intro ps srv h1 h2
    obtain ⟨ts, pats⟩ := srv
    cases hop : s.op with
    | topic n =>
      cases hr : s.reply with
      | ok v =>
        have hsa : serverApplies s = true := by simp [serverApplies, hr]
        simp only [runClient, runServer, hop, hr, hsa, RedisPubSub.subscribe, if_pos]
        exact ih _ _ (by intro a ha; simp only [List.mem_append] at ha ⊢; tauto)
          (by exact fun a ha => h2 ha)
      | error e =>
        simp only [runClient, runServer, hop, hr, RedisPubSub.subscribe]
        by_cases hsa : serverApplies s = true
        · simp only [hsa, if_pos]
          exact ih _ _
            (by intro a ha; exact List.mem_append_left _ (h1 ha))
            (by intro a ha; exact h2 ha)
        · simp only [eq_false_of_ne_true hsa, if_neg Bool.false_ne_true]
          exact ih _ _ h1 h2
    | pattern n =>
      cases hr : s.reply with
      | ok v =>
        have hsa : serverApplies s = true := by simp [serverApplies, hr]
        simp only [runClient, runServer, hop, hr, hsa, RedisPubSub.psubscribe, if_pos]
        exact ih _ _ (by exact fun a ha => h1 ha)
          (by intro a ha; simp only [List.mem_append] at ha ⊢; tauto)
      | error e =>
        simp only [runClient, runServer, hop, hr, RedisPubSub.psubscribe]
        by_cases hsa : serverApplies s = true
        · simp only [hsa, if_pos]
          exact ih _ _
            (by intro a ha; exact h1 ha)
            (by intro a ha; exact List.mem_append_left _ (h2 ha))
        · simp only [eq_false_of_ne_true hsa, if_neg Bool.false_ne_true]
          exact ih _ _ h1 h2

/-- C9: `subscribe`/`psubscribe` append to the tracked set only on a
successful reply and leave the state exactly unchanged on an error, so
starting from a fresh session the tracked sets remain a lower bound on
the server-side sets after any sequence of calls (even when the server
adversarially registers subscriptions whose replies failed in transit). -/
theorem C9_tracked_lower_bound (ps : RedisPubSub) (topic pat : String) (e : RedisError)
    (v : Value) (conn : Connection) (steps : List SubStep) :
    (ps.subscribe topic (.error e) = (.error e, ps)) ∧
    (ps.subscribe topic (.ok v)
      = (.ok (), { ps with subscribed_topics := ps.subscribed_topics ++ [topic] })) ∧
    (ps.psubscribe pat (.error e) = (.error e, ps)) ∧
    (ps.psubscribe pat (.ok v)
      = (.ok (), { ps with subscribed_patterns := ps.subscribed_patterns ++ [pat] })) ∧
    ((runClient (RedisPubSub.new conn) steps).subscribed_topics
        ⊆ (runServer ([], []) steps).1 ∧
     (runClient (RedisPubSub.new conn) steps).subscribed_patterns
        ⊆ (runServer ([], []) steps).2) := by
  refine ⟨rfl, rfl, rfl, rfl, ?_⟩
  exact runClient_subset steps (RedisPubSub.new conn) ([], [])
    (by simp [RedisPubSub.new]) (by simp [RedisPubSub.new])

/-! ### C6: AUTH handshake with legacy fallback -/

/-- The wrong-arity needle `connect_auth` looks for in the error detail. -/
def arityNeedle : String := "wrong number of arguments for 'auth' command"

/-- C6: with a password supplied the client first issues the modern
`AUTH [user] pass`; only a failure whose detail indicates wrong arity for
AUTH triggers the legacy single-argument retry; any other failure
(no detail, other detail, or a successful non-OK reply) is final; the
handshake succeeds only if one of the two forms returned OK; and the
bootstrap `setup_connection` front-loads exactly these AUTH commands. -/
theorem C6_auth_fallback (username : Option String) (password : String)
    (r : AuthReplies) (con : ActualConnection) (sr : SetupReplies)
    (info : RedisConnectionInfo) :
    (r.modern = .ok Value.Okay →
      connect_auth username password r = (.ok (), [AuthCmd.modern username password])) ∧
    (∀ v, r.modern = .ok v → v ≠ Value.Okay →
      connect_auth username password r
        = (.error authRefusedError, [AuthCmd.modern username password])) ∧
    (∀ e, r.modern = .error e → e.detail = none →
      connect_auth username password r
        = (.error authFailedError, [AuthCmd.modern username password])) ∧
    (∀ e d, r.modern = .error e → e.detail = some d →
      contains_substring d arityNeedle = false →
      connect_auth username password r
        = (.error authFailedError, [AuthCmd.modern username password])) ∧
    (∀ e d, r.modern = .error e → e.detail = some d →
      contains_substring d arityNeedle = true →
      (connect_auth username password r).2
          = [AuthCmd.modern username password, AuthCmd.legacy password] ∧
      ((connect_auth username password r).1 = .ok () ↔ r.legacy = .ok Value.Okay)) ∧
    ((connect_auth username password r).1 = .ok () →
      r.modern = .ok Value.Okay ∨ r.legacy = .ok Value.Okay) ∧
    (info.password = some password →
      (∃ tail, (setup_connection con info sr).2
          = (connect_auth info.username password sr.auth).2.map SetupCmd.auth ++ tail) ∧
      (∀ c, (setup_connection con info sr).1 = .ok c →
        (connect_auth info.username password sr.auth).1 = .ok ())) := by
  refine ⟨?_, ?_, ?_, ?_, ?_, ?_, ?_⟩
  · intro hm
    simp [connect_auth, hm]
  · intro v hm hne
    cases v <;> simp only [connect_auth, hm] <;> first | rfl | exact absurd rfl hne
  · intro e hm hd
    simp [connect_auth, hm, hd]
  · intro e d hm hd hc
    simp [connect_auth, hm, hd, arityNeedle] at hc ⊢
    simp [hc]
  · intro e d hm hd hc
    simp only [connect_auth, hm, hd, arityNeedle] at hc ⊢
    rw [hc]
    cases hl : r.legacy with
    | ok v =>
      cases v <;> simp_all
    | error e2 => simp_all
  · intro hok
    cases hm : r.modern with
    | ok v =>
      cases v <;> simp only [connect_auth, hm] at hok <;>
        first
          | exact Or.inl rfl
          | simp at hok
    | error e =>
      cases hd : e.detail with
      | none => simp [connect_auth, hm, hd] at hok
      | some d =>
        by_cases hc :
          contains_substring d "wrong number of arguments for 'auth' command" = true
        · cases hl : r.legacy with
          | ok v =>
            cases v <;> simp [connect_auth, hm, hd, hc, hl] at hok <;>
              first
                | exact Or.inr rfl
                | simp at hok
          | error e2 =>
            simp [connect_auth, hm, hd, hc, hl] at hok
        · rw [Bool.not_eq_true] at hc
          simp [connect_auth, hm, hd, hc] at hok
  · intro hpw
    rcases hca : connect_auth info.username password sr.auth with ⟨res, cmds⟩
    cases res with
    | error e =>
      constructor
      · exact ⟨[], by simp [setup_connection, hpw, hca]⟩
      · intro c hc
        simp [setup_connection, hpw, hca] at hc
    | ok u =>
      constructor
      · by_cases hdb : info.db = 0
        · exact ⟨[], by simp [setup_connection, hpw, hca, hdb]⟩
        · cases hs : sr.select with
          | ok v =>
            cases v <;>
              exact ⟨[SetupCmd.select info.db],
                by simp [setup_connection, hpw, hca, hdb, hs]⟩
          | error e2 =>
            exact ⟨[SetupCmd.select info.db],
              by simp [setup_connection, hpw, hca, hdb, hs]⟩
      · intro c _
        rfl

/-- A concrete wrong-arity server rejection of the modern AUTH form. -/
def aritySampleDetail : String := "ERR wrong number of arguments for 'auth' command"

/-- The error carrying `aritySampleDetail` as its detail. -/
def aritySampleError : RedisError :=
  ⟨.WithDescriptionAndDetail .ResponseError "An error was signalled by the server"
    aritySampleDetail⟩

/-- C6 (witness): a wrong-arity rejection of the modern form followed by
an OK on the legacy form authenticates, and a modern-form OK succeeds
immediately with only the one command issued. -/
theorem C6_auth_fallback_witness :
    (connect_auth (some "user") "pw"
      ⟨.error aritySampleError, .ok Value.Okay⟩).1 = .ok () ∧
    connect_auth none "pw" ⟨.ok Value.Okay, .error authFailedError⟩
      = (.ok (), [AuthCmd.modern none "pw"]) := by
  constructor
  · exact ((C6_auth_fallback (some "user") "pw"
      ⟨.error aritySampleError, .ok Value.Okay⟩ (.Tcp true)
      ⟨⟨.ok Value.Okay, .ok Value.Okay⟩, .ok Value.Okay⟩ ⟨0, none, none⟩).2.2.2.2.1
      aritySampleError aritySampleDetail rfl rfl rfl).2.mpr rfl
  · exact (C6_auth_fallback none "pw"
      ⟨.ok Value.Okay, .error authFailedError⟩ (.Tcp true)
      ⟨⟨.ok Value.Okay, .ok Value.Okay⟩, .ok Value.Okay⟩ ⟨0, none, none⟩).1 rfl

/-! ### C4: receive filters confirmations -/

/-- C4: `receive` discards every leading reply that parses as a
`Confirmation` and converts the first reply that does not: a successful
`Msg::from_value` is returned, anything else is the `TypeError`. -/
theorem C4_receive_filters (pre : List Value) (v : Value) (rest : List Value)
    (hpre : ∀ u ∈ pre, (Confirmation.check_confirmation u).isSome = true)
    (hv : Confirmation.check_confirmation v = none) :
    RedisPubSub.receive (pre ++ v :: rest) =
      some (match Msg.from_value v with
        | some msg => .ok msg
        | none => .error failedParseError) ∧
    failedParseError.kind = ErrorKind.TypeError := by
  constructor
  · induction pre with
    | nil =>
      simp only [List.nil_append, RedisPubSub.receive, hv]
      cases Msg.from_value v <;> rfl
    | cons u pre ih =>
      have hu := hpre u (by simp)
      obtain ⟨confirmation, hc⟩ := Option.isSome_iff_exists.mp hu
      simp only [List.cons_append, RedisPubSub.receive, hc]
      exact ih fun w hw => hpre w (by simp [hw])
  · rfl

/-- C4 (witness): a subscribe confirmation followed by a published
message yields that message; a bare integer reply, which is neither a
confirmation nor a message, yields the `TypeError`. -/
theorem C4_receive_filters_witness :
    RedisPubSub.receive
      [Value.Bulk [Value.Data (utf8Encode "subscribe"),
         Value.Data (utf8Encode "wavephone"), Value.Int 1],
       Value.Bulk [Value.Data (utf8Encode "message"),
         Value.Data (utf8Encode "wavephone"), Value.Data (utf8Encode "banana")]]
      = some (.ok ⟨Value.Data (utf8Encode "banana"),
          Value.Data (utf8Encode "wavephone"), none⟩) ∧
    RedisPubSub.receive [Value.Int 7] = some (.error failedParseError) := by
  constructor
  · exact (C4_receive_filters
      [Value.Bulk [Value.Data (utf8Encode "subscribe"),
        Value.Data (utf8Encode "wavephone"), Value.Int 1]]
      (Value.Bulk [Value.Data (utf8Encode "message"),
        Value.Data (utf8Encode "wavephone"), Value.Data (utf8Encode "banana")])
      []
      (by intro u hu; rw [List.mem_singleton] at hu; subst hu; rfl)
      rfl).1
  · exact (C4_receive_filters [] (Value.Int 7) []
      (by intro u hu; simp at hu) rfl).1

/-! ### C1: pipelines read all replies and report the first error -/

/-- The first error among a list of per-reply outcomes. -/
def firstErrIn (l : List (Except RedisError Value)) : Option RedisError :=
  l.findSome? fun o => match o with
    | .error e => some e
    | .ok _ => none

/-- The successful replies among a list of per-reply outcomes, in order. -/
def okValuesOf (l : List (Except RedisError Value)) : List Value :=
  l.filterMap fun o => match o with
    | .ok v => some v
    | .error _ => none

theorem firstErrIn_cons_ok (v : Value) (l : List (Except RedisError Value)) :
    firstErrIn (.ok v :: l) = firstErrIn l := rfl

theorem firstErrIn_cons_error (e : RedisError) (l : List (Except RedisError Value)) :
    firstErrIn (.error e :: l) = some e := rfl

theorem okValuesOf_cons_ok (v : Value) (l : List (Except RedisError Value)) :
    okValuesOf (.ok v :: l) = v :: okValuesOf l := rfl

theorem okValuesOf_cons_error (e : RedisError) (l : List (Except RedisError Value)) :
    okValuesOf (.error e :: l) = okValuesOf l := rfl

/-- Full characterization of the pipeline read loop: it consumes exactly
`remaining` outcomes, keeps the first error seen (after any already
recorded one), and appends every successful value whose index reached
`offset`. -/
theorem req_loop_spec (remaining : Nat) :
    ∀ (wire : List (Except RedisError Value)) (idx offset : Nat) (rv : List Value)
      (fe : Option RedisError), remaining ≤ wire.length →
      req_loop wire idx remaining offset rv fe =
        ((match fe with
          | some e0 => some e0
          | none => firstErrIn (wire.take remaining),
          rv ++ okValuesOf ((wire.take remaining).drop (offset - idx))),
         wire.drop remaining) := by
  induction remaining with
  | zero =>
    intro wire idx offset rv fe _
    cases fe <;> simp [req_loop, firstErrIn, okValuesOf]
  | succ r ih =>
    intro wire idx offset rv fe h
    cases wire with
    | nil => simp at h
    | cons o rest =>
      have hr : r ≤ rest.length := by simpa using h
      cases o with
      | ok item =>
        have step : req_loop (Except.ok item :: rest) idx (r + 1) offset rv fe =
            req_loop rest (idx + 1) r offset
              (if offset ≤ idx then rv ++ [item] else rv) fe := rfl
        rw [step, ih rest (idx + 1) offset _ fe hr]
        simp only [Prod.mk.injEq]
        refine ⟨⟨?_, ?_⟩, ?_⟩
        · cases fe with
          | some e0 => rfl
          | none => rw [List.take_succ_cons, firstErrIn_cons_ok]
        · by_cases hoi : offset ≤ idx
          · have h0 : offset - idx = 0 := Nat.sub_eq_zero_of_le hoi
            have h1 : offset - (idx + 1) = 0 :=
              Nat.sub_eq_zero_of_le (hoi.trans (Nat.le_succ idx))
            simp [hoi, h0, h1, List.take_succ_cons, okValuesOf_cons_ok]
          · have h2 : offset - idx = (offset - (idx + 1)) + 1 := by omega
            simp [hoi, h2, List.take_succ_cons, List.drop_succ_cons]
        · rw [List.drop_succ_cons]
      | error err =>
        have step : req_loop (Except.error err :: rest) idx (r + 1) offset rv fe =
            req_loop rest (idx + 1) r offset rv
              (match fe with
               | none => some err
               | some e0 => some e0) := rfl
        rw [step, ih rest (idx + 1) offset rv _ hr]
        simp only [Prod.mk.injEq]
        refine ⟨⟨?_, ?_⟩, ?_⟩
        · cases fe with
          | some e0 => rfl
          | none => rw [List.take_succ_cons, firstErrIn_cons_error]
        · by_cases hoi : offset ≤ idx
          · have h0 : offset - idx = 0 := Nat.sub_eq_zero_of_le hoi
            have h1 : offset - (idx + 1) = 0 :=
              Nat.sub_eq_zero_of_le (hoi.trans (Nat.le_succ idx))
            simp [h0, h1, List.take_succ_cons, okValuesOf_cons_error]
          · have h2 : offset - idx = (offset - (idx + 1)) + 1 := by omega
            simp [h2, List.take_succ_cons, List.drop_succ_cons]
        · rw [List.drop_succ_cons]

/-- C1: after a successful send, `req_packed_commands` consumes exactly
`offset + count` replies off the wire — an error at any reply index never
stops consumption — and the overall call reports the first error among
all `offset + count` replies if there is one, otherwise exactly the
successful replies at indices `[offset, offset + count)` in wire order. -/
theorem C1_pipeline_reads_all (c : Connection) (wire : List (Except RedisError Value))
    (offset count : Nat) (h : offset + count ≤ wire.length) :
    (req_packed_commands c (.ok ()) wire offset count).2 = wire.drop (offset + count) ∧
    (req_packed_commands c (.ok ()) wire offset count).1.1
      = (match firstErrIn (wire.take (offset + count)) with
         | some e => .error e
         | none => .ok (okValuesOf ((wire.take (offset + count)).drop offset))) := by
  have hq : req_loop wire 0 (offset + count) offset [] none =
      ((firstErrIn (wire.take (offset + count)),
        okValuesOf ((wire.take (offset + count)).drop offset)),
       wire.drop (offset + count)) := by
    rw [req_loop_spec (offset + count) wire 0 offset [] none h]
    simp
  constructor
  · unfold req_packed_commands
    simp only [ActualConnection.send_bytes]
    rw [hq]
    cases hfe : firstErrIn (wire.take (offset + count)) <;> simp
  · unfold req_packed_commands
    simp only [ActualConnection.send_bytes]
    rw [hq]
    cases hfe : firstErrIn (wire.take (offset + count)) <;> simp

/-- C1 (witness): a pipeline of `offset = 1`, `count = 3` over four
replies in which reply 1 fails consumes the whole wire and reports that
error; with no failing reply the values at indices 1 and 2 are returned. -/
theorem C1_pipeline_reads_all_witness :
    (req_packed_commands ⟨.Tcp true, 0, false⟩ (.ok ())
        [.ok (Value.Int 1), .error ⟨.WithDescription .ResponseError "e1"⟩,
         .ok (Value.Int 2), .ok (Value.Int 3)] 1 3).2 = [] ∧
    (req_packed_commands ⟨.Tcp true, 0, false⟩ (.ok ())
        [.ok (Value.Int 1), .error ⟨.WithDescription .ResponseError "e1"⟩,
         .ok (Value.Int 2), .ok (Value.Int 3)] 1 3).1.1
      = .error ⟨.WithDescription .ResponseError "e1"⟩ ∧
    (req_packed_commands ⟨.Tcp true, 0, false⟩ (.ok ())
        [.ok (Value.Int 1), .ok (Value.Int 2), .ok (Value.Int 3)] 1 2).1.1
      = .ok [Value.Int 2, Value.Int 3] := by
  refine ⟨?_, ?_, ?_⟩
  · exact (C1_pipeline_reads_all ⟨.Tcp true, 0, false⟩ _ 1 3 (by decide)).1
  · exact (C1_pipeline_reads_all ⟨.Tcp true, 0, false⟩ _ 1 3 (by decide)).2
  · exact (C1_pipeline_reads_all ⟨.Tcp true, 0, false⟩ _ 1 2 (by decide)).2

/-! ### C2: the WATCH/retry transaction loop -/

theorem transaction_cons_retry {T : Type} (r : TxRound T) (rest : List (TxRound T))
    (hw : r.watch = .ok ()) (hs : r.step = .ok none) :
    transaction (r :: rest)
      = ((transaction rest).1, [TxEvent.watch, TxEvent.step] ++ (transaction rest).2) := by
  simp [transaction, tx_body, hw, hs]

theorem transaction_cons_watch_error {T : Type} (r : TxRound T) (rest : List (TxRound T))
    (e : RedisError) (hw : r.watch = .error e) :
    transaction (r :: rest) = (some (.error e), [TxEvent.watch]) := by
  simp [transaction, tx_body, hw]

theorem transaction_cons_step_error {T : Type} (r : TxRound T) (rest : List (TxRound T))
    (e : RedisError) (hw : r.watch = .ok ()) (hs : r.step = .error e) :
    transaction (r :: rest) = (some (.error e), [TxEvent.watch, TxEvent.step]) := by
  simp [transaction, tx_body, hw, hs]

theorem transaction_cons_commit {T : Type} (r : TxRound T) (rest : List (TxRound T))
    (v : T) (hw : r.watch = .ok ()) (hs : r.step = .ok (some v))
    (hu : r.unwatch = .ok ()) :
    transaction (r :: rest)
      = (some (.ok v), [TxEvent.watch, TxEvent.step, TxEvent.unwatch]) := by
  simp [transaction, tx_body, hw, hs, hu]

theorem transaction_cons_unwatch_error {T : Type} (r : TxRound T) (rest : List (TxRound T))
    (v : T) (e : RedisError) (hw : r.watch = .ok ()) (hs : r.step = .ok (some v))
    (hu : r.unwatch = .error e) :
    transaction (r :: rest)
      = (some (.error e), [TxEvent.watch, TxEvent.step, TxEvent.unwatch]) := by
  simp [transaction, tx_body, hw, hs, hu]

/-- The loop returns `Ok v` exactly when, after some number of clean
retry rounds (WATCH ok, step "no result"), a round's step returns
`Some v` and its WATCH and UNWATCH both succeed. -/
theorem transaction_ok_iff {T : Type} (rounds : List (TxRound T)) (v : T) :
    (transaction rounds).1 = some (.ok v) ↔
      ∃ k rk, rounds[k]? = some rk ∧
        (∀ r ∈ rounds.take k, r.watch = .ok () ∧ r.step = .ok none) ∧
        rk.watch = .ok () ∧ rk.step = .ok (some v) ∧ rk.unwatch = .ok () := by
  induction rounds with
  | nil => simp [transaction]
  | cons r rest ih =>
    cases hw : r.watch with
    | error e =>
      rw [transaction_cons_watch_error r rest e hw]
      constructor
      · intro hok; simp at hok
      · rintro ⟨k, rk, hget, hpre, hrk⟩
        exfalso
        cases k with
        | zero =>
          rw [List.getElem?_cons_zero, Option.some_inj] at hget
          rw [← hget, hw] at hrk
          exact Except.noConfusion hrk.1
        | succ k' =>
          have hr := hpre r (by simp [List.take_succ_cons])
          rw [hw] at hr
          exact Except.noConfusion hr.1
    | ok u =>
      have hw' : r.watch = .ok () := hw
      cases hs : r.step with
      | error e =>
        rw [transaction_cons_step_error r rest e hw' hs]
        constructor
        · intro hok; simp at hok
        · rintro ⟨k, rk, hget, hpre, hrk⟩
          exfalso
          cases k with
          | zero =>
            rw [List.getElem?_cons_zero, Option.some_inj] at hget
            rw [← hget, hs] at hrk
            exact Except.noConfusion hrk.2.1
          | succ k' =>
            have hr := hpre r (by simp [List.take_succ_cons])
            rw [hs] at hr
            exact Except.noConfusion hr.2
      | ok stepRes =>
        cases stepRes with
        | none =>
          rw [transaction_cons_retry r rest hw' hs]
          simp only []
          rw [ih]
          constructor
          · rintro ⟨k, rk, hget, hpre, hrk⟩
            refine ⟨k + 1, rk, by simpa using hget, ?_, hrk⟩
            intro x hx
            rw [List.take_succ_cons, List.mem_cons] at hx
            rcases hx with hx | hx
            · subst hx; exact ⟨hw', hs⟩
            · exact hpre x hx
          · rintro ⟨k, rk, hget, hpre, hrk⟩
            cases k with
            | zero =>
              exfalso
              rw [List.getElem?_cons_zero, Option.some_inj] at hget
              rw [← hget, hs] at hrk
              exact Option.noConfusion (Except.ok.inj hrk.2.1)
            | succ k' =>
              refine ⟨k', rk, by simpa using hget, ?_, hrk⟩
              intro x hx
              exact hpre x (by rw [List.take_succ_cons, List.mem_cons]; exact Or.inr hx)
        | some w =>
          cases hu : r.unwatch with
          | error e =>
            rw [transaction_cons_unwatch_error r rest w e hw' hs hu]
            constructor
            · intro hok; simp at hok
            · rintro ⟨k, rk, hget, hpre, hrk⟩
              exfalso
              cases k with
              | zero =>
                rw [List.getElem?_cons_zero, Option.some_inj] at hget
                rw [← hget, hu] at hrk
                exact Except.noConfusion hrk.2.2
              | succ k' =>
                have hr := hpre r (by simp [List.take_succ_cons])
                rw [hs] at hr
                have := Except.ok.inj hr.2
                exact Option.noConfusion this
          | ok u2 =>
            have hu' : r.unwatch = .ok () := hu
            rw [transaction_cons_commit r rest w hw' hs hu']
            constructor
            · intro hok
              simp only [Option.some_inj] at hok
              have hwv : w = v := by
                have := Except.ok.inj hok
                exact this
              subst hwv
              exact ⟨0, r, by simp, by simp, hw', hs, hu'⟩
            · rintro ⟨k, rk, hget, hpre, hrk⟩
              cases k with
              | zero =>
                rw [List.getElem?_cons_zero, Option.some_inj] at hget
                subst hget
                rw [hs] at hrk
                have := Option.some_inj.mp (Except.ok.inj hrk.2.1)
                rw [this]
              | succ k' =>
                exfalso
                have hr := hpre r (by simp [List.take_succ_cons])
                rw [hs] at hr
                exact Option.noConfusion (Except.ok.inj hr.2)

/-- Committing after `k` clean retry rounds issues, in order, a
WATCH-step block per retry and then WATCH, step, UNWATCH — so a WATCH
precedes every step invocation and an UNWATCH precedes the return. -/
theorem transaction_commit_trace {T : Type} (k : Nat) :
    ∀ (rounds : List (TxRound T)) (v : T) (rk : TxRound T),
      rounds[k]? = some rk →
      (∀ r ∈ rounds.take k, r.watch = .ok () ∧ r.step = .ok none) →
      rk.watch = .ok () → rk.step = .ok (some v) → rk.unwatch = .ok () →
      transaction rounds
        = (some (.ok v),
           (List.replicate k [TxEvent.watch, TxEvent.step]).flatten
             ++ [TxEvent.watch, TxEvent.step, TxEvent.unwatch]) := by
  induction k with
  | zero =>
    intro rounds v rk hget hpre hw hs hu
    cases rounds with
    | nil => simp at hget
    | cons r rest =>
      rw [List.getElem?_cons_zero, Option.some_inj] at hget
      subst hget
      rw [transaction_cons_commit r rest v hw hs hu]
      simp
  | succ k' ih =>
    intro rounds v rk hget hpre hw hs hu
    cases rounds with
    | nil => simp at hget
    | cons r rest =>
      have hr := hpre r (by simp [List.take_succ_cons])
      rw [transaction_cons_retry r rest hr.1 hr.2]
      have hrec := ih rest v rk (by simpa using hget)
        (fun x hx => hpre x (by rw [List.take_succ_cons, List.mem_cons]; exact Or.inr hx))
        hw hs hu
      rw [hrec]
      simp [List.replicate_succ]

/-- Pure contention never terminates and never stops re-issuing WATCH:
`n` retry rounds produce no result and a trace of `n` WATCH-step blocks,
for every `n`. -/
theorem transaction_retry_forever {T : Type} (n : Nat) :
    transaction (List.replicate n (⟨.ok (), .ok none, .ok ()⟩ : TxRound T))
      = (none, (List.replicate n [TxEvent.watch, TxEvent.step]).flatten) := by
  induction n with
  | zero => simp [transaction]
  | succ n ih =>
    rw [List.replicate_succ, transaction_cons_retry _ _ rfl rfl, ih,
      List.replicate_succ]
    simp

/-- C2: the loop WATCHes before every step invocation and retries with no
bound while the step reports no result; it returns `Ok v` exactly when
some round's step returned `Some v` (with WATCH and a final UNWATCH
succeeding, the UNWATCH issued before returning); and any error from
WATCH, the step function, or UNWATCH is propagated immediately, reading
no further round. -/
theorem C2_transaction_loop (T : Type) (rounds : List (TxRound T)) (v : T) (n : Nat) :
    ((transaction rounds).1 = some (.ok v) ↔
      ∃ k rk, rounds[k]? = some rk ∧
        (∀ r ∈ rounds.take k, r.watch = .ok () ∧ r.step = .ok none) ∧
        rk.watch = .ok () ∧ rk.step = .ok (some v) ∧ rk.unwatch = .ok ()) ∧
    (∀ k rk, rounds[k]? = some rk →
      (∀ r ∈ rounds.take k, r.watch = .ok () ∧ r.step = .ok none) →
      rk.watch = .ok () → rk.step = .ok (some v) → rk.unwatch = .ok () →
      transaction rounds
        = (some (.ok v),
           (List.replicate k [TxEvent.watch, TxEvent.step]).flatten
             ++ [TxEvent.watch, TxEvent.step, TxEvent.unwatch])) ∧
    (∀ (r : TxRound T) (rest : List (TxRound T)) (e : RedisError),
      r.watch = .error e →
      transaction (r :: rest) = (some (.error e), [TxEvent.watch])) ∧
    (∀ (r : TxRound T) (rest : List (TxRound T)) (e : RedisError),
      r.watch = .ok () → r.step = .error e →
      transaction (r :: rest) = (some (.error e), [TxEvent.watch, TxEvent.step])) ∧
    (∀ (r : TxRound T) (rest : List (TxRound T)) (w : T) (e : RedisError),
      r.watch = .ok () → r.step = .ok (some w) → r.unwatch = .error e →
      transaction (r :: rest)
        = (some (.error e), [TxEvent.watch, TxEvent.step, TxEvent.unwatch])) ∧
    (transaction (List.replicate n (⟨.ok (), .ok none, .ok ()⟩ : TxRound T))
      = (none, (List.replicate n [TxEvent.watch, TxEvent.step]).flatten)) := by
  exact ⟨transaction_ok_iff rounds v,
    fun k rk hget hpre hw hs hu => transaction_commit_trace k rounds v rk hget hpre hw hs hu,
    fun r rest e hw => transaction_cons_watch_error r rest e hw,
    fun r rest e hw hs => transaction_cons_step_error r rest e hw hs,
    fun r rest w e hw hs hu => transaction_cons_unwatch_error r rest w e hw hs hu,
    transaction_retry_forever n⟩

/-- A contended round: WATCH succeeds, the step observes an aborted EXEC. -/
def retryRound : TxRound Nat := ⟨.ok (), .ok none, .ok ()⟩

/-- A committing round producing the value `5`. -/
def commitRound : TxRound Nat := ⟨.ok (), .ok (some 5), .ok ()⟩

/-- C2 (witness): one contended round followed by a committing round
returns `5` with the trace WATCH-step, WATCH-step-UNWATCH; a failing step
propagates its error immediately. -/
theorem C2_transaction_loop_witness :
    transaction [retryRound, commitRound]
      = (some (.ok 5),
         [TxEvent.watch, TxEvent.step, TxEvent.watch, TxEvent.step, TxEvent.unwatch]) ∧
    transaction [(⟨.ok (), .error ⟨.WithDescription .ResponseError "boom"⟩, .ok ()⟩ :
        TxRound Nat), retryRound]
      = (some (.error ⟨.WithDescription .ResponseError "boom"⟩),
         [TxEvent.watch, TxEvent.step]) := by
  constructor
  · exact (C2_transaction_loop Nat [retryRound, commitRound] 5 0).2.1 1 commitRound rfl
      (by intro r hr; simp [List.take_succ_cons] at hr; subst hr; exact ⟨rfl, rfl⟩)
      rfl rfl rfl
  · exact (C2_transaction_loop Nat [] 0 0).2.2.2.1
      ⟨.ok (), .error ⟨.WithDescription .ResponseError "boom"⟩, .ok ()⟩
      [retryRound] ⟨.WithDescription .ResponseError "boom"⟩ rfl rfl

/-! ### C5: the unsubscribe drain of `exit_pubsub` -/

/-- Flag update induced by one reply: only a reply that parses as the
unsubscribe triple contributes, via its first byte. -/
def updFlagsValue (fl : Bool × Bool) (v : Value) : Bool × Bool :=
  match from_redis_unsub_triple v with
  | .ok (bytes, _, _) => updFlags fl.1 fl.2 bytes
  | .error _ => fl

/-- The confirmation flags after a list of replies. -/
def drainFlags (init : Bool × Bool) (replies : List Value) : Bool × Bool :=
  replies.foldl updFlagsValue init

/-- Whether the drain loop's break condition holds right after reading
reply `k`: both confirmation families seen among replies `0..k` and the
remaining-subscription count in reply `k` equal to zero. -/
def stopCondAux (init : Bool × Bool) (replies : List Value) (k : Nat) : Bool :=
  let fl := drainFlags init (replies.take (k + 1))
  fl.1 && fl.2 &&
    (match replies[k]? with
     | some v =>
       match from_redis_unsub_triple v with
       | .ok (_, _, cnt) => cnt == 0
       | .error _ => false
     | none => false)

/-- Whether replies `0..k` all parse as unsubscribe triples. -/
def parsesOkUpTo (replies : List Value) (k : Nat) : Bool :=
  (replies.take (k + 1)).all fun v => (from_redis_unsub_triple v).toOption.isSome

theorem stopCondAux_cons (init : Bool × Bool) (v : Value) (rest : List Value) (k : Nat) :
    stopCondAux init (v :: rest) (k + 1) = stopCondAux (updFlagsValue init v) rest k := by
  simp [stopCondAux, drainFlags, List.take_succ_cons, List.getElem?_cons_succ]

theorem clear_loop_cons_ok (v : Value) (rest : List Value) (ru rp : Bool)
    (bytes : List Nat) (u : Unit) (cnt : Int)
    (hparse : from_redis_unsub_triple v = .ok (bytes, u, cnt)) :
    clear_loop (v :: rest) ru rp =
      if (updFlags ru rp bytes).1 && (updFlags ru rp bytes).2 && cnt == 0 then
        (some (.ok rest), [PsEvent.read])
      else
        ((clear_loop rest (updFlags ru rp bytes).1 (updFlags ru rp bytes).2).1,
         PsEvent.read :: (clear_loop rest (updFlags ru rp bytes).1 (updFlags ru rp bytes).2).2) := by
  simp only [clear_loop, hparse]

/-- Forward direction: with the break condition first reached at reply
`k` (and every reply up to `k` parsing), the drain loop consumes exactly
`k + 1` replies and succeeds with the unread tail. -/
theorem clear_loop_stops (k : Nat) :
    ∀ (replies : List Value) (init : Bool × Bool),
      parsesOkUpTo replies k = true →
      stopCondAux init replies k = true →
      (∀ j, j < k → stopCondAux init replies j = false) →
      clear_loop replies init.1 init.2
        = (some (.ok (replies.drop (k + 1))), List.replicate (k + 1) PsEvent.read) := by
  induction k with
  | zero =>
    intro replies init hp hs _
    cases replies with
    | nil => simp [stopCondAux] at hs
    | cons v rest =>
      rcases hparse : from_redis_unsub_triple v with e | ⟨bytes, u, cnt⟩
      · exfalso
        simp [parsesOkUpTo, hparse, Except.toOption] at hp
      · rw [clear_loop_cons_ok v rest init.1 init.2 bytes u cnt hparse]
        have hcond : ((updFlags init.1 init.2 bytes).1
            && (updFlags init.1 init.2 bytes).2 && (cnt == 0)) = true := by
          have := hs
          simp only [stopCondAux, drainFlags, List.take_succ_cons, List.take_zero,
            List.foldl_cons, List.foldl_nil, List.getElem?_cons_zero,
            updFlagsValue, hparse] at this
          simpa using this
        rw [if_pos hcond]
        simp
  | succ k' ih =>
    intro replies init hp hs hmin
    cases replies with
    | nil => simp [stopCondAux] at hs
    | cons v rest =>
      rcases hparse : from_redis_unsub_triple v with e | ⟨bytes, u, cnt⟩
      · exfalso
        simp [parsesOkUpTo, List.take_succ_cons, hparse, Except.toOption] at hp
      · rw [clear_loop_cons_ok v rest init.1 init.2 bytes u cnt hparse]
        have hstop0 : stopCondAux init (v :: rest) 0 = false := hmin 0 (Nat.succ_pos k')
        have hcond : ((updFlags init.1 init.2 bytes).1
            && (updFlags init.1 init.2 bytes).2 && (cnt == 0)) = false := by
          have := hstop0
          simp only [stopCondAux, drainFlags, List.take_succ_cons, List.take_zero,
            List.foldl_cons, List.foldl_nil, List.getElem?_cons_zero,
            updFlagsValue, hparse] at this
          simpa using this
        rw [if_neg (by rw [hcond]; exact Bool.false_ne_true)]
        have hup : updFlagsValue init v = updFlags init.1 init.2 bytes := by
          simp [updFlagsValue, hparse]
        have hrec := ih rest (updFlags init.1 init.2 bytes)
          (by
            have h' := hp
            simp only [parsesOkUpTo, List.take_succ_cons, List.all_cons,
              Bool.and_eq_true] at h'
            simpa [parsesOkUpTo] using h'.2)
          (by rw [← hup, ← stopCondAux_cons init v rest k']; exact hs)
          (by
            intro j hj
            rw [← hup, ← stopCondAux_cons init v rest j]
            exact hmin (j + 1) (Nat.succ_lt_succ hj))
        rw [hrec]
        simp [List.replicate_succ]

/-- Backward direction: a successful drain pinpoints a first reply `k`
at which the break condition held, with `k + 1` replies consumed. -/
theorem clear_loop_ok_inv (replies : List Value) :
    ∀ (init : Bool × Bool) (tail : List Value) (evs : List PsEvent),
      clear_loop replies init.1 init.2 = (some (.ok tail), evs) →
      ∃ k, parsesOkUpTo replies k = true ∧ stopCondAux init replies k = true ∧
        (∀ j, j < k → stopCondAux init replies j = false) ∧
        tail = replies.drop (k + 1) ∧ evs = List.replicate (k + 1) PsEvent.read := by
  induction replies with
  | nil =>
    intro init tail evs h
    simp [clear_loop] at h
  | cons v rest ih =>
    intro init tail evs h
    rcases hparse : from_redis_unsub_triple v with e | ⟨bytes, u, cnt⟩
    · simp [clear_loop, hparse] at h
    · rw [clear_loop_cons_ok v rest init.1 init.2 bytes u cnt hparse] at h
      have hup : updFlagsValue init v = updFlags init.1 init.2 bytes := by
        simp [updFlagsValue, hparse]
      by_cases hcond : ((updFlags init.1 init.2 bytes).1
          && (updFlags init.1 init.2 bytes).2 && (cnt == 0)) = true
      · rw [if_pos hcond] at h
        obtain ⟨h1, h2⟩ := Prod.mk.injEq .. ▸ h
        refine ⟨0, ?_, ?_, by omega, ?_, ?_⟩
        · simp [parsesOkUpTo, hparse, Except.toOption]
        · simp only [stopCondAux, drainFlags, List.take_succ_cons, List.take_zero,
            List.foldl_cons, List.foldl_nil, List.getElem?_cons_zero,
            updFlagsValue, hparse]
          simpa using hcond
        · have := Option.some_inj.mp h1
          simpa [List.drop_succ_cons] using (Except.ok.inj this).symm
        · exact h2.symm
      · rw [if_neg hcond] at h
        rw [Bool.not_eq_true] at hcond
        obtain ⟨h1, h2⟩ := Prod.mk.injEq .. ▸ h
        obtain ⟨k', hp', hs', hmin', htail', hevs'⟩ :=
          ih (updFlags init.1 init.2 bytes) tail
            (clear_loop rest (updFlags init.1 init.2 bytes).1
              (updFlags init.1 init.2 bytes).2).2
            (by rw [← h1])
        refine ⟨k' + 1, ?_, ?_, ?_, ?_, ?_⟩
        · simp only [parsesOkUpTo, List.take_succ_cons, List.all_cons,
            Bool.and_eq_true]
          refine ⟨by simp [hparse, Except.toOption], ?_⟩
          simpa [parsesOkUpTo] using hp'
        · rw [stopCondAux_cons init v rest k', hup]
          exact hs'
        · intro j hj
          cases j with
          | zero =>
            simp only [stopCondAux, drainFlags, List.take_succ_cons, List.take_zero,
              List.foldl_cons, List.foldl_nil, List.getElem?_cons_zero,
              updFlagsValue, hparse]
            simpa using hcond
          | succ j' =>
            rw [stopCondAux_cons init v rest j', hup]
            exact hmin' j' (by omega)
        · simpa [List.drop_succ_cons] using htail'
        · rw [← h2, hevs', List.replicate_succ]
          simp [List.replicate_succ]

/-- C5: `exit_pubsub` sends the unsubscribe-all and
pattern-unsubscribe-all commands back-to-back before any read, then
reads confirmations, terminating — with the connection returned —
exactly at the first reply after which both confirmation families have
been observed and the current reply's remaining-subscription count is
zero. -/
theorem C5_exit_drain (ps : RedisPubSub) (replies : List Value) :
    (∀ k, parsesOkUpTo replies k = true →
      stopCondAux (false, false) replies k = true →
      (∀ j, j < k → stopCondAux (false, false) replies j = false) →
      ps.exit_pubsub replies
        = (some (.ok ps.connection),
           PsEvent.send_unsubscribe :: PsEvent.send_punsubscribe ::
             List.replicate (k + 1) PsEvent.read)) ∧
    (∀ conn evs, ps.exit_pubsub replies = (some (.ok conn), evs) →
      conn = ps.connection ∧
      ∃ k, parsesOkUpTo replies k = true ∧ stopCondAux (false, false) replies k = true ∧
        (∀ j, j < k → stopCondAux (false, false) replies j = false) ∧
        evs = PsEvent.send_unsubscribe :: PsEvent.send_punsubscribe ::
          List.replicate (k + 1) PsEvent.read) := by
  constructor
  · intro k hp hs hmin
    have hcl := clear_loop_stops k replies (false, false) hp hs hmin
    simp [RedisPubSub.exit_pubsub, clear_active_subscriptions, hcl]
  · intro conn evs h
    rcases hcl : clear_loop replies false false with ⟨r, evs0⟩
    simp only [RedisPubSub.exit_pubsub, clear_active_subscriptions, hcl] at h
    cases r with
    | none => simp at h
    | some res =>
      cases res with
      | error e => simp at h
      | ok tail =>
        simp only [Prod.mk.injEq, Option.some_inj] at h
        obtain ⟨h1, h2⟩ := h
        obtain ⟨k, hp, hs, hmin, _, hevs⟩ :=
          clear_loop_ok_inv replies (false, false) tail evs0 hcl
        refine ⟨(Except.ok.inj h1).symm, k, hp, hs, hmin, ?_⟩
        rw [← h2, hevs]

/-- C5 (witness): draining after an unsubscribe confirmation with one
remaining subscription and then a punsubscribe confirmation with zero
remaining consumes both replies and returns the connection, with the
two sends preceding the reads. -/
theorem C5_exit_drain_witness :
    RedisPubSub.exit_pubsub ⟨⟨.Tcp true, 0, false⟩, ["foo"], ["p1"]⟩
      [Value.Bulk [Value.Data (utf8Encode "unsubscribe"),
         Value.Data (utf8Encode "foo"), Value.Int 1],
       Value.Bulk [Value.Data (utf8Encode "punsubscribe"),
         Value.Data (utf8Encode "p1"), Value.Int 0]]
      = (some (.ok ⟨.Tcp true, 0, false⟩),
         [PsEvent.send_unsubscribe, PsEvent.send_punsubscribe,
          PsEvent.read, PsEvent.read]) := by
  exact (C5_exit_drain ⟨⟨.Tcp true, 0, false⟩, ["foo"], ["p1"]⟩
      [Value.Bulk [Value.Data (utf8Encode "unsubscribe"),
         Value.Data (utf8Encode "foo"), Value.Int 1],
       Value.Bulk [Value.Data (utf8Encode "punsubscribe"),
         Value.Data (utf8Encode "p1"), Value.Int 0]]).1 1 rfl rfl
    (by intro j hj; have hj0 : j = 0 := by omega
        subst hj0; rfl)

/-! ### C7: connection-URL parsing -/

/-- C7 (counterexample): the path segment `-2` does not parse as a
non-negative integer, yet `url_to_tcp_connection_info` accepts it — the
source parses the segment with `parse::<i64>`, so a negative database
index is accepted rather than rejected as `InvalidClientConfig`. -/
theorem C7_counterexample :
    rust_parse_int 0 (2 ^ 63 - 1) "-2" = none ∧
    url_to_tcp_connection_info ⟨"redis", some "example.com", none, "/-2", "", none, none⟩
      = Except.ok ⟨ConnectionAddr.Tcp "example.com" 6379, ⟨-2, none, none⟩⟩ := by
  constructor
  · rfl
  · rfl

/-- C7 (amended): username and password are percent-decoded; a present
path segment must parse as a signed 64-bit integer (negative values are
accepted verbatim) with default db `0`; a non-integer segment is
rejected as `InvalidClientConfig`, as are an unrecognized scheme and a
fragment other than `#insecure` on the TLS scheme. -/
theorem C7_url_parsing :
    (url_to_tcp_connection_info
        ⟨"redis", some "example.com", none, "/2", "%25johndoe%25",
          some "%23%40%3C%3E%24", none⟩
      = Except.ok ⟨ConnectionAddr.Tcp "example.com" 6379,
          ⟨2, some "%johndoe%", some "#@<>$"⟩⟩) ∧
    (∀ (url : Url) (host : String), url.scheme = "redis" → url.host = some host →
      trim_slashes url.path ≠ "" → rust_parse_i64 (trim_slashes url.path) = none →
      url_to_tcp_connection_info url
          = Except.error (invalidConfigError "Invalid database number") ∧
      (invalidConfigError "Invalid database number").kind = ErrorKind.InvalidClientConfig) ∧
    (∀ (url : Url) (host : String), url.scheme = "redis" → url.host = some host →
      url.username = "" → url.password = none →
      (trim_slashes url.path = "" →
        url_to_tcp_connection_info url
          = Except.ok ⟨ConnectionAddr.Tcp host (url.port.getD 6379), ⟨0, none, none⟩⟩) ∧
      (∀ n : Int, rust_parse_i64 (trim_slashes url.path) = some n →
        url_to_tcp_connection_info url
          = Except.ok ⟨ConnectionAddr.Tcp host (url.port.getD 6379), ⟨n, none, none⟩⟩)) ∧
    (∀ (url : Url) (host du : String), url.scheme = "redis" → url.host = some host →
      trim_slashes url.path = "" → url.password = none → url.username ≠ "" →
      utf8DecodeStr (percent_decode (utf8Encode url.username)) = some du →
      url_to_tcp_connection_info url
        = Except.ok ⟨ConnectionAddr.Tcp host (url.port.getD 6379), ⟨0, some du, none⟩⟩) ∧
    (∀ (url : Url) (host pw dp : String), url.scheme = "redis" → url.host = some host →
      trim_slashes url.path = "" → url.username = "" → url.password = some pw →
      utf8DecodeStr (percent_decode (utf8Encode pw)) = some dp →
      url_to_tcp_connection_info url
        = Except.ok ⟨ConnectionAddr.Tcp host (url.port.getD 6379), ⟨0, none, some dp⟩⟩) ∧
    (∀ (url : Url) (host frag : String), url.scheme = "rediss" → url.host = some host →
      url.fragment = some frag → frag ≠ "insecure" →
      url_to_tcp_connection_info url
        = Except.error (invalidConfigError "only #insecure is supported as URL fragment")) ∧
    (∀ url : Url, url.scheme ≠ "redis" → url.scheme ≠ "rediss" →
      url.scheme ≠ "unix" → url.scheme ≠ "redis+unix" →
      url.into_connection_info
        = Except.error (invalidConfigError "URL provided is not a redis URL")) := by
  refine ⟨by rfl, ?_, ?_, ?_, ?_, ?_, ?_⟩
  · intro url host hscheme hhost hne hparse
    have hs2 : url.scheme ≠ "rediss" := by rw [hscheme]; decide
    refine ⟨?_, rfl⟩
    simp [url_to_tcp_connection_info, hhost, hs2, hne, hparse,
      Bind.bind, Except.bind, Pure.pure, Except.pure]
  · intro url host hscheme hhost huser hpw
    have hs2 : url.scheme ≠ "rediss" := by rw [hscheme]; decide
    constructor
    · intro hpath
      simp [url_to_tcp_connection_info, hhost, hs2, hpath, huser, hpw,
        DEFAULT_PORT, Pure.pure, Except.pure, Bind.bind, Except.bind]
    · intro n hparse
      by_cases hpath : trim_slashes url.path = ""
      · exfalso
        rw [hpath] at hparse
        simp [rust_parse_i64, rust_parse_int, digitsVal] at hparse
      · simp [url_to_tcp_connection_info, hhost, hs2, hpath, hparse, huser, hpw,
          DEFAULT_PORT, Pure.pure, Except.pure, Bind.bind, Except.bind]
  · intro url host du hscheme hhost hpath hpw huser hdec
    have hs2 : url.scheme ≠ "rediss" := by rw [hscheme]; decide
    simp [url_to_tcp_connection_info, hhost, hs2, hpath, huser, hpw, hdec,
      DEFAULT_PORT, Pure.pure, Except.pure, Bind.bind, Except.bind]
  · intro url host pw dp hscheme hhost hpath huser hpw hdec
    have hs2 : url.scheme ≠ "rediss" := by rw [hscheme]; decide
    simp [url_to_tcp_connection_info, hhost, hs2, hpath, huser, hpw, hdec,
      DEFAULT_PORT, Pure.pure, Except.pure, Bind.bind, Except.bind]
  · intro url host frag hscheme hhost hfrag hne
    simp [url_to_tcp_connection_info, hhost, hscheme, hfrag, hne,
      Bind.bind, Except.bind, Pure.pure, Except.pure]
  · intro url h1 h2 h3 h4
    simp [Url.into_connection_info, h1, h2, h3, h4]

/-- C7 (witness): a non-numeric path is rejected, a negative path
segment is accepted as the db, a stray TLS fragment is rejected, and an
unknown scheme is rejected. -/
theorem C7_url_parsing_witness :
    url_to_tcp_connection_info ⟨"redis", some "h", none, "/db", "", none, none⟩
      = Except.error (invalidConfigError "Invalid database number") ∧
    url_to_tcp_connection_info ⟨"redis", some "h", some 7777, "/-3", "", none, none⟩
      = Except.ok ⟨ConnectionAddr.Tcp "h" 7777, ⟨-3, none, none⟩⟩ ∧
    url_to_tcp_connection_info ⟨"rediss", some "h", none, "", "", none, some "plain"⟩
      = Except.error (invalidConfigError "only #insecure is supported as URL fragment") ∧
    Url.into_connection_info ⟨"http", some "h", none, "", "", none, none⟩
      = Except.error (invalidConfigError "URL provided is not a redis URL") := by
  refine ⟨?_, ?_, ?_, ?_⟩
  · exact (C7_url_parsing.2.1 ⟨"redis", some "h", none, "/db", "", none, none⟩ "h"
      rfl rfl (by decide) rfl).1
  · exact (C7_url_parsing.2.2.1 ⟨"redis", some "h", some 7777, "/-3", "", none, none⟩ "h"
      rfl rfl rfl rfl).2 (-3) rfl
  · exact C7_url_parsing.2.2.2.2.2.1 ⟨"rediss", some "h", none, "", "", none, some "plain"⟩
      "h" "plain" rfl rfl rfl (by decide)
  · exact C7_url_parsing.2.2.2.2.2.2 ⟨"http", some "h", none, "", "", none, none⟩
      (by decide) (by decide) (by decide) (by decide)

end LunaticRedis
